import Mathlib

/-!  Verification of the WebUntis monitor timetable fetcher.

The development shallowly embeds the core of the repository (the module
version of the fetcher, `getWebUntisTimetable` and its helpers) into Lean:

* the date codec (`getUntisDate` and the day-offset arithmetic performed by
  the JS `Date.setDate` call);
* the fixed monitor payload template and the payload builder;
* the response-handling pipeline (config validation, HTTP/domain error
  classification, row filtering, payload assembly), with the network
  exchange supplied as an explicit parameter and the console error output
  modelled as a structured log;
* the console grouping/presentation helpers (tag stripping, cancellation
  detection, grouping by class).
-/

/-! ## Date codec

The source computes the query date by `new Date(targetDate)` followed by
`queryDate.setDate(queryDate.getDate() + dateOffset)`, which performs
calendar day arithmetic (month/year rollover, leap years), and then encodes
it with `getUntisDate`.  Dates are modelled by their local calendar fields.
-/

structure UDate where
  year : Int
  month : Nat
  day : Nat
deriving DecidableEq, Repr

/-- Gregorian leap-year rule used by JS `Date` calendar arithmetic. -/
def isLeapYear (y : Int) : Bool :=
  (y % 4 == 0 && y % 100 != 0) || (y % 400 == 0)

/-- Number of days of month `m` (1-12) of year `y`. -/
def daysInMonth (y : Int) (m : Nat) : Nat :=
  match m with
  | 1 => 31
  | 2 => if isLeapYear y then 29 else 28
  | 3 => 31
  | 4 => 30
  | 5 => 31
  | 6 => 30
  | 7 => 31
  | 8 => 31
  | 9 => 30
  | 10 => 31
  | 11 => 30
  | 12 => 31
  | _ => 30

/-- Calendar successor of a date (the effect of `setDate(getDate() + 1)`). -/
def nextDay (d : UDate) : UDate :=
  if d.day < daysInMonth d.year d.month then ⟨d.year, d.month, d.day + 1⟩
  else if d.month < 12 then ⟨d.year, d.month + 1, 1⟩
  else ⟨d.year + 1, 1, 1⟩

/-- Calendar predecessor of a date (the effect of `setDate(getDate() - 1)`). -/
def prevDay (d : UDate) : UDate :=
  if 1 < d.day then ⟨d.year, d.month, d.day - 1⟩
  else if 1 < d.month then ⟨d.year, d.month - 1, daysInMonth d.year (d.month - 1)⟩
  else ⟨d.year - 1, 12, 31⟩

/-- Day-offset arithmetic of `queryDate.setDate(queryDate.getDate() + dateOffset)`:
JS `Date` normalises an out-of-range day-of-month by calendar rules, which is
exactly iterated calendar succession (or predecession for negative offsets). -/
def applyOffset (d : UDate) (k : Int) : UDate :=
  match k with
  | Int.ofNat n => nextDay^[n] d
  | Int.negSucc n => prevDay^[n + 1] d

/-- A well-formed calendar date: month in 1-12, day within the month. -/
def UDate.Valid (d : UDate) : Prop :=
  1 ≤ d.month ∧ d.month ≤ 12 ∧ 1 ≤ d.day ∧ d.day ≤ daysInMonth d.year d.month

instance (d : UDate) : Decidable d.Valid := by
  unfold UDate.Valid; infer_instance

/-- The decimal digit characters produced by JS number-to-string conversion. -/
def digitChar (n : Nat) : Char :=
  match n with
  | 0 => '0'
  | 1 => '1'
  | 2 => '2'
  | 3 => '3'
  | 4 => '4'
  | 5 => '5'
  | 6 => '6'
  | 7 => '7'
  | 8 => '8'
  | 9 => '9'
  | _ => '*'

/-- Decimal representation of a natural number as a character list (fuelled so
that the kernel can evaluate it; `toDecimal` supplies sufficient fuel). -/
def toDecimalFuel : Nat → Nat → List Char
  | 0, n => [digitChar n]
  | fuel + 1, n =>
    if n < 10 then [digitChar n]
    else toDecimalFuel fuel (n / 10) ++ [digitChar (n % 10)]

/-- Decimal representation of a natural number, as produced by the JS template
literal for a non-negative integer. -/
def toDecimal (n : Nat) : List Char := toDecimalFuel n n

/-- Decimal representation of a JS number that is an integer (template literal
interpolation `${year}`). -/
def intToDecimal : Int → List Char
  | Int.ofNat n => toDecimal n
  | Int.negSucc n => '-' :: toDecimal (n + 1)

/-- `String(x).padStart(2, "0")` on a character list. -/
def padStart2 (l : List Char) : List Char :=
  List.replicate (2 - l.length) '0' ++ l

/-- Value of `parseInt(s, 10)` on an all-digit string `s`. -/
def parseDecDigits (l : List Char) : Nat :=
  l.foldl (fun n c => n * 10 + (c.toNat - 48)) 0

/-- Embedding of `getUntisDate`: builds the string
`` `${year}${month-padded}${day-padded}` `` and parses it in base 10. -/
def getUntisDate (d : UDate) : Nat :=
  parseDecDigits (intToDecimal d.year ++ padStart2 (toDecimal d.month) ++ padStart2 (toDecimal d.day))

theorem digitChar_toNat (n : Nat) (h : n < 10) : (digitChar n).toNat - 48 = n := by
  interval_cases n <;> decide

theorem parseDecDigits_foldl (v : Nat) (l : List Char) :
    l.foldl (fun n c => n * 10 + (c.toNat - 48)) v =
      v * 10 ^ l.length + parseDecDigits l := by
  induction l generalizing v with
  | nil => simp [parseDecDigits]
  | cons c t ih =>
    simp only [List.foldl_cons, List.length_cons, parseDecDigits] at *
    rw [ih (v * 10 + (c.toNat - 48)), ih (0 * 10 + (c.toNat - 48))]
    ring

theorem toDecimalFuel_small (n : Nat) (h : n < 10) :
    ∀ fuel, toDecimalFuel fuel n = [digitChar n] := by
  intro fuel
  cases fuel with
  | zero => rfl
  | succ f => simp [toDecimalFuel, h]

theorem parseDecDigits_toDecimalFuel (fuel : Nat) :
    ∀ n, n ≤ fuel → parseDecDigits (toDecimalFuel fuel n) = n := by
  induction fuel with
  | zero =>
    intro n hn
    have : n = 0 := Nat.le_zero.mp hn
    subst this; decide
  | succ f ih =>
    intro n hn
    by_cases h : n < 10
    · rw [toDecimalFuel_small n h]
      simp [parseDecDigits, digitChar_toNat n h]
    · have hdiv : n / 10 ≤ f := by
        have h10 : 10 ≤ n := Nat.not_lt.mp h
        have : n / 10 < n := Nat.div_lt_self (by omega) (by omega)
        omega
      simp only [toDecimalFuel, if_neg h]
      unfold parseDecDigits
      rw [List.foldl_append]
      have hrec := ih (n / 10) hdiv
      unfold parseDecDigits at hrec
      rw [hrec]
      simp only [List.foldl_cons, List.foldl_nil]
      rw [digitChar_toNat (n % 10) (Nat.mod_lt n (by omega))]
      omega

theorem parseDecDigits_toDecimal (n : Nat) : parseDecDigits (toDecimal n) = n :=
  parseDecDigits_toDecimalFuel n n (Nat.le_refl n)

theorem toDecimal_length_le (n : Nat) (h : n < 100) : (toDecimal n).length ≤ 2 := by
  by_cases h10 : n < 10
  · rw [toDecimal, toDecimalFuel_small n h10]; simp
  · have h10' : 10 ≤ n := Nat.not_lt.mp h10
    unfold toDecimal
    cases n with
    | zero => omega
    | succ m =>
      simp only [toDecimalFuel, if_neg (by omega : ¬ m + 1 < 10)]
      rw [toDecimalFuel_small ((m + 1) / 10) (by omega)]
      simp

theorem padStart2_length (l : List Char) (h : l.length ≤ 2) :
    (padStart2 l).length = 2 := by
  simp [padStart2]
  omega

theorem parseDecDigits_padStart2 (l : List Char) :
    parseDecDigits (padStart2 l) = parseDecDigits l := by
  unfold padStart2 parseDecDigits
  rw [List.foldl_append]
  have : ∀ k, (List.replicate k '0').foldl (fun n c => n * 10 + (c.toNat - 48)) 0 = 0 := by
    intro k
    induction k with
    | zero => rfl
    | succ j ih => simpa [List.replicate_succ] using ih
  rw [this]

/-- Numeric value described by the spec: four-digit year, two-digit month and
day concatenated. -/
def dateNumeral (d : UDate) : Nat :=
  d.year.toNat * 10000 + d.month * 100 + d.day

theorem getUntisDate_eq (d : UDate) (hy : 0 ≤ d.year) (hm : d.month < 100)
    (hd : d.day < 100) : getUntisDate d = dateNumeral d := by
  obtain ⟨yr, mo, da⟩ := d
  cases yr with
  | negSucc n => exact absurd hy (Int.not_le.mpr (Int.negSucc_lt_zero n))
  | ofNat y =>
    show parseDecDigits (intToDecimal (Int.ofNat y) ++ padStart2 (toDecimal mo) ++
      padStart2 (toDecimal da)) = (Int.ofNat y).toNat * 10000 + mo * 100 + da
    have hmlen := padStart2_length _ (toDecimal_length_le mo hm)
    have hdlen := padStart2_length _ (toDecimal_length_le da hd)
    unfold intToDecimal parseDecDigits
    rw [List.foldl_append, List.foldl_append]
    have hy' : (toDecimal y).foldl (fun n c => n * 10 + (c.toNat - 48)) 0 = y :=
      parseDecDigits_toDecimal y
    rw [hy']
    rw [parseDecDigits_foldl y (padStart2 (toDecimal mo)), hmlen]
    rw [parseDecDigits_foldl _ (padStart2 (toDecimal da)), hdlen]
    rw [parseDecDigits_padStart2, parseDecDigits_padStart2,
      parseDecDigits_toDecimal, parseDecDigits_toDecimal]
    show (y * 10 ^ 2 + mo) * 10 ^ 2 + da = y * 10000 + mo * 100 + da
    ring

theorem daysInMonth_bounds (y : Int) (m : Nat) (h1 : 1 ≤ m) (h2 : m ≤ 12) :
    1 ≤ daysInMonth y m ∧ daysInMonth y m ≤ 31 := by
  interval_cases m <;> simp [daysInMonth] <;> split <;> omega

theorem nextDay_valid (d : UDate) (h : d.Valid) : (nextDay d).Valid := by
  obtain ⟨h1, h2, h3, h4⟩ := h
  unfold nextDay
  split
  · rename_i hlt
    exact ⟨h1, h2, Nat.succ_le_succ (Nat.zero_le _), hlt⟩
  · split
    · rename_i hm
      exact ⟨Nat.succ_le_succ (Nat.zero_le _), (by omega : d.month + 1 ≤ 12),
        le_refl 1, (daysInMonth_bounds d.year (d.month + 1) (by omega) (by omega)).1⟩
    · exact ⟨le_refl 1, (by norm_num : (1 : Nat) ≤ 12), le_refl 1,
        (by norm_num : (1 : Nat) ≤ 31)⟩

theorem prevDay_valid (d : UDate) (h : d.Valid) : (prevDay d).Valid := by
  obtain ⟨h1, h2, h3, h4⟩ := h
  unfold prevDay
  split
  · rename_i hlt
    exact ⟨h1, h2, (by omega : 1 ≤ d.day - 1), (by omega : d.day - 1 ≤ daysInMonth d.year d.month)⟩
  · split
    · rename_i hm
      exact ⟨(by omega : 1 ≤ d.month - 1), (by omega : d.month - 1 ≤ 12),
        (daysInMonth_bounds d.year (d.month - 1) (by omega) (by omega)).1, le_refl _⟩
    · exact ⟨(by norm_num : (1 : Nat) ≤ 12), le_refl 12, (by norm_num : (1 : Nat) ≤ 31),
        le_refl 31⟩

theorem applyOffset_ofNat (d : UDate) (n : Nat) :
    applyOffset d (Int.ofNat n) = nextDay^[n] d := rfl

theorem applyOffset_negSucc (d : UDate) (n : Nat) :
    applyOffset d (Int.negSucc n) = prevDay^[n + 1] d := rfl

theorem applyOffset_valid (d : UDate) (k : Int) (h : d.Valid) :
    (applyOffset d k).Valid := by
  cases k with
  | ofNat n =>
    rw [applyOffset_ofNat]
    induction n with
    | zero => simpa using h
    | succ m ih =>
      rw [Function.iterate_succ_apply']
      exact nextDay_valid _ ih
  | negSucc n =>
    rw [applyOffset_negSucc]
    induction n with
    | zero => simpa using prevDay_valid d h
    | succ m ih =>
      rw [Function.iterate_succ_apply' prevDay (m + 1) d]
      exact prevDay_valid _ ih

/-! ## Markup tag stripping

The renderer computes `info.replace(/<[^>]*>/g, "")`.  The regex matches a
literal `<`, a maximal run of non-`>` characters, then a literal `>`: each
match spans from a `<` to the first `>` after it, and an unterminated `<` is
left in place.  The recursion is fuelled so the kernel can evaluate it.
-/

/-- Suffix after the first `>` of the list, if any. -/
def afterGt : List Char → Option (List Char)
  | [] => none
  | c :: rest => if c = '>' then some rest else afterGt rest

def stripTagsFuel : Nat → List Char → List Char
  | 0, l => l
  | _ + 1, [] => []
  | fuel + 1, c :: rest =>
    if c = '<' then
      match afterGt rest with
      | some rest2 => stripTagsFuel fuel rest2
      | none => c :: stripTagsFuel fuel rest
    else c :: stripTagsFuel fuel rest

/-- Embedding of the global regex replace `/<[^>]*>/g` with the empty string. -/
def stripTags (l : List Char) : List Char := stripTagsFuel l.length l

def stripTagsStr (s : String) : String := String.mk (stripTags s.data)

/-- Modelled from the spec: the info text with any markup tags stripped, a
markup tag being any substring delimited by a `<` and the `>` closing it;
text without a closing `>` is not a delimited substring and stays. -/
def specStripFuel : Nat → List Char → List Char
  | 0, l => l
  | _ + 1, [] => []
  | fuel + 1, c :: rest =>
    if c = '<' ∧ '>' ∈ rest then
      specStripFuel fuel ((rest.dropWhile (fun x => x != '>')).drop 1)
    else c :: specStripFuel fuel rest

def specStrip (l : List Char) : List Char := specStripFuel l.length l

def specStripStr (s : String) : String := String.mk (specStrip s.data)

theorem afterGt_eq_none (l : List Char) : afterGt l = none ↔ '>' ∉ l := by
  induction l with
  | nil => simp [afterGt]
  | cons c rest ih =>
    by_cases hc : c = '>'
    · subst hc; simp [afterGt]
    · simp only [afterGt, if_neg hc, ih, List.mem_cons, not_or]
      constructor
      · intro h
        exact ⟨fun h1 => hc h1.symm, h⟩
      · intro h
        exact h.2

theorem afterGt_eq_some (l : List Char) (h : '>' ∈ l) :
    afterGt l = some ((l.dropWhile (fun x => x != '>')).drop 1) := by
  induction l with
  | nil => simp at h
  | cons c rest ih =>
    by_cases hc : c = '>'
    · subst hc; simp [afterGt, List.dropWhile]
    · have hr : '>' ∈ rest := by
        rcases List.mem_cons.mp h with h1 | h1
        · exact absurd h1.symm hc
        · exact h1
      have hne : (c != '>') = true := bne_iff_ne.mpr hc
      have h1 : afterGt (c :: rest) = afterGt rest := by
        simp [afterGt, hc]
      rw [h1, List.dropWhile_cons, if_pos hne]
      exact ih hr

theorem afterGt_length (l l' : List Char) (h : afterGt l = some l') :
    l'.length < l.length := by
  induction l generalizing l' with
  | nil => simp [afterGt] at h
  | cons c rest ih =>
    by_cases hc : c = '>'
    · subst hc
      simp [afterGt] at h
      subst h
      simp
    · simp [afterGt, hc] at h
      have := ih l' h
      simp
      omega

theorem stripTagsFuel_eq_spec : ∀ fuel (l : List Char), l.length ≤ fuel →
    stripTagsFuel fuel l = specStripFuel fuel l := by
  intro fuel
  induction fuel with
  | zero => intro l _; rfl
  | succ f ih =>
    intro l hl
    cases l with
    | nil => rfl
    | cons c rest =>
      have hrest : rest.length ≤ f := by simpa using hl
      by_cases hc : c = '<'
      · by_cases hg : '>' ∈ rest
        · have hsome := afterGt_eq_some rest hg
          have hlen := afterGt_length rest _ hsome
          simp only [stripTagsFuel, specStripFuel, if_pos hc,
            if_pos (show c = '<' ∧ '>' ∈ rest from ⟨hc, hg⟩), hsome]
          exact ih _ (by omega)
        · have hnone : afterGt rest = none := (afterGt_eq_none rest).mpr hg
          have hcond : ¬ (c = '<' ∧ '>' ∈ rest) := fun hx => hg hx.2
          simp only [stripTagsFuel, specStripFuel, if_pos hc, if_neg hcond, hnone]
          rw [ih rest hrest]
      · have hcond : ¬ (c = '<' ∧ '>' ∈ rest) := fun hx => hc hx.1
        simp only [stripTagsFuel, specStripFuel, if_neg hc, if_neg hcond]
        rw [ih rest hrest]

theorem stripTags_eq_specStrip (l : List Char) : stripTags l = specStrip l :=
  stripTagsFuel_eq_spec l.length l (Nat.le_refl _)

theorem stripTagsStr_eq_specStripStr (s : String) : stripTagsStr s = specStripStr s := by
  unfold stripTagsStr specStripStr
  rw [stripTags_eq_specStrip]

/-! ## Lexicographic string order

`Object.keys(...).sort()` compares strings lexicographically by character
code units.  The comparison is modelled on the underlying character lists
(by character code), kept decidable and kernel-evaluable.
-/

def lexLe : List Char → List Char → Bool
  | [], _ => true
  | _ :: _, [] => false
  | a :: as, b :: bs =>
    if a.toNat < b.toNat then true
    else if a.toNat = b.toNat then lexLe as bs
    else false

def lexLt : List Char → List Char → Bool
  | [], [] => false
  | [], _ :: _ => true
  | _ :: _, [] => false
  | a :: as, b :: bs =>
    if a.toNat < b.toNat then true
    else if a.toNat = b.toNat then lexLt as bs
    else false

theorem char_toNat_inj (a b : Char) (h : a.toNat = b.toNat) : a = b := by
  apply Char.eq_of_val_eq
  apply UInt32.eq_of_toBitVec_eq
  apply BitVec.eq_of_toNat_eq
  exact h

theorem lexLe_total (a : List Char) : ∀ b, lexLe a b = true ∨ lexLe b a = true := by
  induction a with
  | nil => intro b; left; rfl
  | cons x xs ih =>
    intro b
    cases b with
    | nil => right; rfl
    | cons y ys =>
      rcases Nat.lt_trichotomy x.toNat y.toNat with h | h | h
      · left; simp [lexLe, h]
      · rcases ih ys with h2 | h2
        · left; simp [lexLe, h, lt_irrefl, h2]
        · right; simp [lexLe, h.symm, lt_irrefl, h2]
      · right; simp [lexLe, h]

theorem lexLe_trans (a : List Char) :
    ∀ b c, lexLe a b = true → lexLe b c = true → lexLe a c = true := by
  induction a with
  | nil => intro b c _ _; rfl
  | cons x xs ih =>
    intro b c h1 h2
    cases b with
    | nil => simp [lexLe] at h1
    | cons y ys =>
      cases c with
      | nil => simp [lexLe] at h2
      | cons z zs =>
        by_cases hxy : x.toNat < y.toNat
        · by_cases hyz : y.toNat < z.toNat
          · simp [lexLe, show x.toNat < z.toNat by omega]
          · by_cases hyz2 : y.toNat = z.toNat
            · simp [lexLe, show x.toNat < z.toNat by omega]
            · simp [lexLe, hyz, hyz2] at h2
        · by_cases hxy2 : x.toNat = y.toNat
          · simp only [lexLe, if_neg hxy, if_pos hxy2] at h1
            by_cases hyz : y.toNat < z.toNat
            · simp [lexLe, show x.toNat < z.toNat by omega]
            · by_cases hyz2 : y.toNat = z.toNat
              · simp only [lexLe, if_neg hyz, if_pos hyz2] at h2
                have hxz : ¬ x.toNat < z.toNat := by omega
                have hxz2 : x.toNat = z.toNat := by omega
                simp only [lexLe, if_neg hxz, if_pos hxz2]
                exact ih ys zs h1 h2
              · simp [lexLe, hyz, hyz2] at h2
          · simp [lexLe, hxy, hxy2] at h1

theorem lexLe_of_ne (a : List Char) :
    ∀ b, lexLe a b = true → a ≠ b → lexLt a b = true := by
  induction a with
  | nil =>
    intro b _ hne
    cases b with
    | nil => exact absurd rfl hne
    | cons y ys => rfl
  | cons x xs ih =>
    intro b h1 hne
    cases b with
    | nil => simp [lexLe] at h1
    | cons y ys =>
      by_cases hxy : x.toNat < y.toNat
      · simp [lexLt, hxy]
      · by_cases hxy2 : x.toNat = y.toNat
        · have hx : x = y := char_toNat_inj x y hxy2
          subst hx
          simp only [lexLe, if_neg hxy, if_pos rfl] at h1
          have hne2 : xs ≠ ys := fun h => hne (by rw [h])
          simp only [lexLt, if_neg hxy, if_pos rfl]
          exact ih ys h1 hne2
        · simp [lexLe, hxy, hxy2] at h1

/-- The order used to compare group-name keys: ascending lexicographic. -/
def strLe (s t : String) : Prop := lexLe s.data t.data = true

/-- Strict ascending lexicographic comparison of group names. -/
def strLt (s t : String) : Prop := lexLt s.data t.data = true

instance : DecidableRel strLe := fun s t =>
  inferInstanceAs (Decidable (lexLe s.data t.data = true))

instance : DecidableRel strLt := fun s t =>
  inferInstanceAs (Decidable (lexLt s.data t.data = true))

instance : IsTotal String strLe := ⟨fun s t => lexLe_total s.data t.data⟩

instance : IsTrans String strLe := ⟨fun a b c => lexLe_trans a.data b.data c.data⟩

theorem strLt_of_strLe_ne (s t : String) (h : strLe s t) (hne : s ≠ t) : strLt s t :=
  lexLe_of_ne s.data t.data h fun hd => hne (congrArg String.mk hd)

/-! ## Rows, presentation facts and grouping

A row carries a `group` string (possibly missing), the fixed 5-tuple
`data = [stunde, fach, raum, lehrer, info]` and the `cellClasses` mapping
from cell index to style-tag list; JS objects are modelled as association
lists.  The renderer destructures these in `renderTimetableConsole`.
-/

structure RowData where
  hour : Option String
  subject : Option String
  room : Option String
  teacher : Option String
  info : Option String
deriving DecidableEq, Repr

structure Row where
  group : Option String
  data : RowData
  cellClasses : Option (List (String × List String))
deriving DecidableEq, Repr

/-- JS `x || "N/A"`: empty or missing strings fall back to the placeholder. -/
def orNA (o : Option String) : String :=
  match o with
  | none => "N/A"
  | some s => if s = "" then "N/A" else s

structure Presentation where
  hour : String
  subject : String
  room : String
  teacher : String
  cleanedInfo : String
  isCancelled : Bool
deriving DecidableEq, Repr

/-- Per-row presentation facts derived in the render loop: `cleanInfo` is
`info ? info.replace(/<[^>]*>/g, "") : ""`, and the cancellation marker is
`row.cellClasses && row.cellClasses["1"] && row.cellClasses["1"].includes("cancelStyle")`. -/
def derivePresentation (r : Row) : Presentation :=
  { hour := orNA r.data.hour
    subject := orNA r.data.subject
    room := orNA r.data.room
    teacher := orNA r.data.teacher
    cleanedInfo :=
      match r.data.info with
      | none => ""
      | some s => if s = "" then "" else stripTagsStr s
    isCancelled :=
      match r.cellClasses with
      | none => false
      | some cc =>
        match cc.lookup "1" with
        | none => false
        | some tags => tags.contains "cancelStyle" }

/-- `row.group || "Unbekannte Gruppe"`: the sentinel bucket name for rows
with a missing or empty group. -/
def groupName (r : Row) : String :=
  match r.group with
  | none => "Unbekannte Gruppe"
  | some g => if g = "" then "Unbekannte Gruppe" else g

/-- Key insertion order of the `reduce` accumulator object: a new key is
appended, an existing one left in place. -/
def insertKey (ks : List String) (k : String) : List String :=
  if k ∈ ks then ks else ks ++ [k]

/-- The group keys of the accumulator object built by `reduce`. -/
def bucketKeys (rows : List Row) : List String :=
  rows.foldl (fun acc r => insertKey acc (groupName r)) []

/-- `Object.keys(groupedTimetable).sort()`. -/
def sortedGroupNames (rows : List Row) : List String :=
  (bucketKeys rows).insertionSort strLe

/-- The grouped timetable in render order: bucket names sorted
lexicographically, each bucket holding its rows in original order. -/
def groupByClass (rows : List Row) : List (String × List Row) :=
  (sortedGroupNames rows).map fun n => (n, rows.filter (fun r => groupName r == n))

theorem mem_insertKey_self (ks : List String) (k : String) : k ∈ insertKey ks k := by
  unfold insertKey
  split
  · assumption
  · simp

theorem mem_insertKey_mono (ks : List String) (k x : String) (h : x ∈ ks) :
    x ∈ insertKey ks k := by
  unfold insertKey
  split
  · exact h
  · simp [h]

theorem insertKey_nodup (ks : List String) (k : String) (h : ks.Nodup) :
    (insertKey ks k).Nodup := by
  unfold insertKey
  split
  · exact h
  · rename_i hk
    simp [List.nodup_append, h, hk]

theorem foldl_insertKey_mono (l : List Row) :
    ∀ acc x, x ∈ acc → x ∈ l.foldl (fun acc r => insertKey acc (groupName r)) acc := by
  induction l with
  | nil => intro acc x h; simpa using h
  | cons r t ih =>
    intro acc x h
    exact ih _ x (mem_insertKey_mono acc (groupName r) x h)

theorem groupName_mem_foldl (l : List Row) :
    ∀ acc r, r ∈ l → groupName r ∈ l.foldl (fun acc r => insertKey acc (groupName r)) acc := by
  induction l with
  | nil => intro acc r h; simp at h
  | cons a t ih =>
    intro acc r h
    rcases List.mem_cons.mp h with h1 | h1
    · subst h1
      exact foldl_insertKey_mono t _ _ (mem_insertKey_self acc (groupName r))
    · exact ih _ r h1

theorem foldl_insertKey_nodup (l : List Row) :
    ∀ acc, acc.Nodup → (l.foldl (fun acc r => insertKey acc (groupName r)) acc).Nodup := by
  induction l with
  | nil => intro acc h; simpa using h
  | cons r t ih =>
    intro acc h
    exact ih _ (insertKey_nodup acc (groupName r) h)

theorem bucketKeys_nodup (rows : List Row) : (bucketKeys rows).Nodup :=
  foldl_insertKey_nodup rows [] List.nodup_nil

theorem groupName_mem_bucketKeys (rows : List Row) (r : Row) (h : r ∈ rows) :
    groupName r ∈ bucketKeys rows :=
  groupName_mem_foldl rows [] r h

theorem sortedGroupNames_sorted (rows : List Row) :
    (sortedGroupNames rows).Sorted strLe :=
  List.sorted_insertionSort strLe (bucketKeys rows)

theorem sortedGroupNames_perm (rows : List Row) :
    (sortedGroupNames rows).Perm (bucketKeys rows) :=
  List.perm_insertionSort strLe (bucketKeys rows)

theorem sortedGroupNames_nodup (rows : List Row) : (sortedGroupNames rows).Nodup :=
  ((sortedGroupNames_perm rows).nodup_iff).mpr (bucketKeys_nodup rows)

theorem sortedGroupNames_strict (rows : List Row) :
    (sortedGroupNames rows).Pairwise strLt := by
  have hle := sortedGroupNames_sorted rows
  have hne : (sortedGroupNames rows).Pairwise (fun s t => s ≠ t) :=
    sortedGroupNames_nodup rows
  exact (List.Pairwise.and hle hne).imp fun h => strLt_of_strLe_ne _ _ h.1 h.2

theorem groupByClass_names (rows : List Row) :
    (groupByClass rows).map Prod.fst = sortedGroupNames rows := by
  unfold groupByClass
  rw [List.map_map]
  rw [show (Prod.fst ∘ fun n => (n, rows.filter (fun r => groupName r == n))) = id from rfl]
  exact List.map_id _

theorem groupByClass_mem_bucket (rows : List Row) (n : String) (b : List Row)
    (h : (n, b) ∈ groupByClass rows) :
    b = rows.filter (fun r => groupName r == n) ∧ b.Sublist rows := by
  unfold groupByClass at h
  rcases List.mem_map.mp h with ⟨m, _, heq⟩
  have hn : m = n := congrArg Prod.fst heq
  have hb : rows.filter (fun r => groupName r == m) = b := congrArg Prod.snd heq
  subst hn
  refine ⟨hb.symm, ?_⟩
  rw [← hb]
  exact List.filter_sublist rows

theorem groupByClass_sentinel (rows : List Row) (r : Row) (h : r ∈ rows)
    (hg : groupName r = "Unbekannte Gruppe") :
    ∃ b, ("Unbekannte Gruppe", b) ∈ groupByClass rows ∧ r ∈ b := by
  have hk : "Unbekannte Gruppe" ∈ sortedGroupNames rows := by
    rw [(sortedGroupNames_perm rows).mem_iff]
    rw [← hg]
    exact groupName_mem_bucketKeys rows r h
  refine ⟨rows.filter (fun x => groupName x == "Unbekannte Gruppe"), ?_, ?_⟩
  · unfold groupByClass
    exact List.mem_map.mpr ⟨"Unbekannte Gruppe", hk, rfl⟩
  · exact List.mem_filter.mpr ⟨h, by simp [hg]⟩

/-! ## JS values, school configuration and its validation

`getWebUntisTimetable` first checks
`!schoolConfig || !schoolConfig.schoolName || !schoolConfig.formatName ||
 !Array.isArray(schoolConfig.departmentIds)` and returns `null` (after a
`console.error`) when the check fails.  Strings are falsy exactly when
empty or missing; `Array.isArray` checks only arrayness, not element types.
-/

/-- A primitive JS value (array elements of the payloads at hand are always
primitive, so arrays of primitives suffice for this embedding). -/
inductive JPrim where
  | pb (b : Bool)
  | pi (n : Int)
  | ps (s : String)
deriving DecidableEq, Repr

inductive JVal where
  | jb (b : Bool)
  | ji (n : Int)
  | js (s : String)
  | jarr (elems : List JPrim)
  | jnull
deriving DecidableEq, Repr

structure SchoolConfigJs where
  schoolName : Option String
  formatName : Option String
  departmentIds : JVal
deriving DecidableEq, Repr

/-- JS truthiness of an optional string field: missing, null and empty are falsy. -/
def truthyOptStr : Option String → Bool
  | none => false
  | some s => s != ""

/-- `Array.isArray`. -/
def isArray : JVal → Bool
  | .jarr _ => true
  | _ => false

/-- The validation condition of the source (negated guard): the config object
is present, `schoolName` and `formatName` are truthy and `departmentIds` is
an array. -/
def validConfig : Option SchoolConfigJs → Bool
  | none => false
  | some c => truthyOptStr c.schoolName && truthyOptStr c.formatName && isArray c.departmentIds

/-! ## Decoded response bodies and the retrieval pipeline -/

structure ErrorObj where
  code : Int
  message : String
deriving DecidableEq, Repr

/-- The JS value found in the `error` field of a decoded response body. -/
inductive ErrorField where
  | absent
  | nullv
  | boolVal (b : Bool)
  | numVal (n : Int)
  | strVal (s : String)
  | objVal (e : ErrorObj)
deriving DecidableEq, Repr

/-- JS truthiness of the `error` field, as tested by `if (data.error)`. -/
def ErrorField.truthy : ErrorField → Bool
  | absent => false
  | nullv => false
  | boolVal b => b
  | numVal n => n != 0
  | strVal s => s != ""
  | objVal _ => true

/-- `data.error.code` (undefined unless the field holds an object). -/
def ErrorField.codeOf : ErrorField → Option Int
  | objVal e => some e.code
  | _ => none

/-- `data.error.message` (undefined unless the field holds an object). -/
def ErrorField.messageOf : ErrorField → Option String
  | objVal e => some e.message
  | _ => none

structure AbsentElement where
  elementName : Option String
  absenceTypes : List String
deriving DecidableEq, Repr

/-- The `data.payload` object: `rows`, `absentElements`, `lastUpdate`, and any
further fields (carried as an association list so that the object spread can
be stated). -/
structure TimetablePayload where
  rows : List Row
  absentElements : List AbsentElement
  lastUpdate : String
  extra : List (String × JVal)
deriving DecidableEq, Repr

/-- A decoded JSON response body: an optional `error` field and an optional
`payload` object. -/
structure DecodedBody where
  error : ErrorField
  payload : Option TimetablePayload
deriving DecidableEq, Repr

/-- The network exchange observed by one retrieval call: either `fetch`
rejected, or a response arrived with its `ok` flag, status, body text and
(if the body was valid JSON) the decoded body. -/
inductive Exchange where
  | thrown (cause : String)
  | replied (ok : Bool) (status : Nat) (bodyText : String) (json : Option DecodedBody)
deriving DecidableEq, Repr

/-- The reason attached to the error caught by the `catch` block. -/
inductive ErrReason where
  | network (cause : String)
  | http (status : Nat) (bodyText : String)
  | api (message : Option String)
  | parse
  | payloadMissing
deriving DecidableEq, Repr

/-- One `console.error` emission of the retrieval call, with the diagnostic
data it carries. -/
inductive LogEntry where
  | configError
  | httpStatus (status : Nat)
  | httpBody (bodyText : String)
  | apiErrorLog (code : Option Int) (message : Option String)
  | caught (r : ErrReason)
deriving DecidableEq, Repr

/-- The filter step of `getWebUntisTimetable`:
`let filteredRows = data.payload.rows;
 if (filterGroups && filterGroups.length > 0)
   filteredRows = data.payload.rows.filter(row => filterGroups.includes(row.group));`. -/
def filterRows (rows : List Row) (filterGroups : Option (List String)) : List Row :=
  match filterGroups with
  | none => rows
  | some gs =>
    if 0 < gs.length then
      rows.filter fun r =>
        match r.group with
        | some g => gs.contains g
        | none => false
    else rows

/-- Assembly of `processedPayload`: the object spread copies every field of
`data.payload`, then `rows` is overwritten with the filter output and
`absentElements` with (the identical) `data.payload.absentElements`. -/
def processPayload (p : TimetablePayload) (filterGroups : Option (List String)) :
    TimetablePayload :=
  { p with rows := filterRows p.rows filterGroups, absentElements := p.absentElements }

/-- The observable outcome of one retrieval call: the returned value (`none`
models the JS `null` returned on any failure), whether the `fetch` was
reached, and the `console.error` log. -/
structure RunResult where
  result : Option TimetablePayload
  networkUsed : Bool
  errorLog : List LogEntry
deriving DecidableEq, Repr

/-- Embedding of the response-handling pipeline of `getWebUntisTimetable`:
validation, then (`fetch` having produced `ex`) HTTP-status check, JSON
decoding, domain-error check, filtering and payload assembly.  Every `throw`
lands in the `catch` block, which logs the error and returns `null`. -/
def getWebUntisTimetable (cfg : Option SchoolConfigJs)
    (filterGroups : Option (List String)) (ex : Exchange) : RunResult :=
  if validConfig cfg = false then ⟨none, false, [.configError]⟩
  else
    match ex with
    | .thrown cause => ⟨none, true, [.caught (.network cause)]⟩
    | .replied ok status text json =>
      if ok = false then
        ⟨none, true, [.httpStatus status, .httpBody text, .caught (.http status text)]⟩
      else
        match json with
        | none => ⟨none, true, [.caught .parse]⟩
        | some body =>
          if body.error.truthy then
            ⟨none, true, [.apiErrorLog body.error.codeOf body.error.messageOf,
              .caught (.api body.error.messageOf)]⟩
          else
            match body.payload with
            | none => ⟨none, true, [.caught .payloadMissing]⟩
            | some p => ⟨some (processPayload p filterGroups), true, []⟩

/-! ## The fixed monitor payload template and the request body -/

/-- The constant display/behaviour flag block `BASE_MONITOR_PAYLOAD_TEMPLATE`,
as an association list in source order. -/
def BASE_MONITOR_PAYLOAD_TEMPLATE : List (String × JVal) :=
  [("strikethrough", .jb true),
   ("mergeBlocks", .jb true),
   ("showOnlyFutureSub", .jb false),
   ("showBreakSupervisions", .jb true),
   ("showTeacher", .jb true),
   ("showClass", .jb false),
   ("showHour", .jb true),
   ("showInfo", .jb true),
   ("showRoom", .jb true),
   ("showSubject", .jb true),
   ("groupBy", .ji 1),
   ("hideAbsent", .jb true),
   ("departmentElementType", .ji 1),
   ("hideCancelWithSubstitution", .jb true),
   ("hideCancelCausedByEvent", .jb false),
   ("showTime", .jb false),
   ("showSubstText", .jb true),
   ("showAbsentElements", .jarr [.pi 2]),
   ("showAffectedElements", .jarr []),
   ("showUnitTime", .jb true),
   ("showMessages", .jb true),
   ("showStudentgroup", .jb false),
   ("enableSubstitutionFrom", .jb false),
   ("showSubstitutionFrom", .ji 0),
   ("showTeacherOnEvent", .jb false),
   ("showAbsentTeacher", .jb false),
   ("strikethroughAbsentTeacher", .jb true),
   ("activityTypeIds", .jarr []),
   ("showEvent", .jb true),
   ("showCancel", .jb true),
   ("showOnlyCancel", .jb false),
   ("showSubstTypeColor", .jb false),
   ("showExamSupervision", .jb false),
   ("showUnheraldedExams", .jb false)]

/-- A JS string-or-missing value placed into the request body. -/
def optStrVal : Option String → JVal
  | none => .jnull
  | some s => .js s

/-- The request body built per call:
`{...BASE_MONITOR_PAYLOAD_TEMPLATE, schoolName, formatName, departmentIds,
  date, dateOffset, numberOfDays}`.  The template contains none of the six
overriding keys, so the spread lays out the template entries first (verbatim)
followed by the per-call entries. -/
def buildPayload (c : SchoolConfigJs) (untisDate : Nat) (dateOffset : Int)
    (numberOfDays : Int) : List (String × JVal) :=
  BASE_MONITOR_PAYLOAD_TEMPLATE ++
    [("schoolName", optStrVal c.schoolName),
     ("formatName", optStrVal c.formatName),
     ("departmentIds", c.departmentIds),
     ("date", .ji untisDate),
     ("dateOffset", .ji dateOffset),
     ("numberOfDays", .ji numberOfDays)]

theorem lookup_append_left {α : Type} [DecidableEq α] {β : Type}
    (l r : List (α × β)) (k : α) (h : (l.lookup k).isSome) :
    (l ++ r).lookup k = l.lookup k := by
  induction l with
  | nil => simp [List.lookup] at h
  | cons a t ih =>
    simp only [List.cons_append, List.lookup] at *
    cases hk : (k == a.1) with
    | true => rfl
    | false => simp only [hk] at h ⊢; exact ih h

theorem lookup_isSome_of_mem_keys {α : Type} [DecidableEq α] {β : Type}
    (l : List (α × β)) (k : α) (h : k ∈ l.map Prod.fst) :
    (l.lookup k).isSome := by
  induction l with
  | nil => simp at h
  | cons a t ih =>
    rw [List.map_cons, List.mem_cons] at h
    simp only [List.lookup]
    rcases h with h1 | h1
    · subst h1
      simp
    · cases hk : (k == a.1) with
      | true => simp
      | false => exact ih h1

/-! ## Concrete fixtures used by witnesses and counterexamples -/

def rowA : Row :=
  ⟨some "11a", ⟨some "1 - 2", some "Mathe", some "R1", some "ABC", some "Room <b>changed</b>"⟩,
    some [("1", ["cancelStyle"])]⟩

def rowB : Row :=
  ⟨none, ⟨some "3", some "Bio", none, some "XYZ", none⟩, none⟩

def sampleRows : List Row := [rowA, rowB]

def samplePayload : TimetablePayload :=
  ⟨sampleRows, [⟨some "Herr X", ["ABSENCE"]⟩], "21.05.2025 07:00", [("weekDay", .js "Mi")]⟩

def okCfgRaw : SchoolConfigJs :=
  ⟨some "Gymnasium am Markt", some "GamMa_SuS_2d_Monitor", .jarr [.pi 2, .pi 1, .pi 3]⟩

def okCfg : Option SchoolConfigJs := some okCfgRaw

def badDeptCfg : SchoolConfigJs :=
  ⟨some "Gymnasium am Markt", some "GamMa_SuS_2d_Monitor", .jarr [.ps "x"]⟩

def apiErrBody : DecodedBody := ⟨.objVal ⟨-1, "not found"⟩, none⟩

def okBody : DecodedBody := ⟨.absent, some samplePayload⟩

/-- Spec-side membership predicate: the row's `group` field is a member of
`filterGroups` under exact string equality. -/
def specGroupMember (gs : List String) (r : Row) : Bool :=
  match r.group with
  | none => false
  | some g => decide (g ∈ gs)

/-- A concrete check that the fuelled regex embedding evaluates as expected
on the example of the spec. -/
theorem stripTags_example : stripTagsStr "Room <b>changed</b>" = "Room changed" := by
  decide

/-! ## The claims -/

/-- C1: for every row sequence, if `filterGroups` is absent or empty the
filtering step returns the rows unchanged; otherwise it returns exactly the
subsequence of rows whose `group` field is a member of `filterGroups` under
exact string equality, preserving the original relative order. -/
theorem c1_filterRows_semantics (rows : List Row) (gs : List String) (h : gs ≠ []) :
    filterRows rows none = rows ∧
    filterRows rows (some []) = rows ∧
    filterRows rows (some gs) = rows.filter (specGroupMember gs) ∧
    (∀ r : Row, specGroupMember gs r = true ↔ ∃ g, r.group = some g ∧ g ∈ gs) ∧
    (filterRows rows (some gs)).Sublist rows := by
  have hlen : 0 < gs.length := List.length_pos.mpr h
  have hpred : (fun r : Row =>
      match r.group with
      | some g => gs.contains g
      | none => false) = specGroupMember gs := by
    funext r
    unfold specGroupMember
    cases r.group with
    | none => rfl
    | some g =>
      by_cases hg : g ∈ gs <;> simp [hg]
  have hform : filterRows rows (some gs) = rows.filter (fun r : Row =>
      match r.group with
      | some g => gs.contains g
      | none => false) := by
    simp [filterRows, hlen]
  refine ⟨rfl, rfl, ?_, ?_, ?_⟩
  · rw [hform, hpred]
  · intro r
    unfold specGroupMember
    cases hgr : r.group with
    | none => simp
    | some g => simp
  · rw [hform]
    exact List.filter_sublist rows

theorem c1_filterRows_semantics_witness :
    (["11a"] : List String) ≠ [] ∧ filterRows sampleRows (some ["11a"]) = [rowA] := by
  refine ⟨by decide, ?_⟩
  have h := (c1_filterRows_semantics sampleRows ["11a"] (by decide)).2.2.1
  rw [h]
  decide

/-- C2: for every valid calendar date and every integer day offset, offsetting
by calendar arithmetic and then encoding yields the YYYYMMDD integer of the
offset date (four-digit year, zero-padded month and day concatenated). -/
theorem c2_date_codec (d : UDate) (k : Int) (hv : d.Valid)
    (hy : 1000 ≤ (applyOffset d k).year ∧ (applyOffset d k).year ≤ 9999) :
    getUntisDate (applyOffset d k) = dateNumeral (applyOffset d k) := by
  obtain ⟨h1, h2, h3, h4⟩ := applyOffset_valid d k hv
  have hdm := (daysInMonth_bounds (applyOffset d k).year (applyOffset d k).month h1 h2).2
  exact getUntisDate_eq _ (by omega) (by omega) (by omega)

theorem c2_date_codec_witness :
    UDate.Valid ⟨2024, 2, 28⟩ ∧
    getUntisDate (applyOffset ⟨2024, 2, 28⟩ 1) = 20240229 ∧
    applyOffset ⟨2024, 2, 28⟩ 1 = ⟨2024, 2, 29⟩ ∧
    getUntisDate (applyOffset ⟨2024, 12, 31⟩ 1) = 20250101 ∧
    applyOffset ⟨2024, 12, 31⟩ 1 = ⟨2025, 1, 1⟩ := by
  refine ⟨by decide, ?_, by decide, ?_, by decide⟩
  · rw [c2_date_codec ⟨2024, 2, 28⟩ 1 (by decide) (by decide)]
    decide
  · rw [c2_date_codec ⟨2024, 12, 31⟩ 1 (by decide) (by decide)]
    decide

/-- C3: a success-status exchange whose decoded body holds an error object
yields the unsuccessful result together with an ApiError report carrying the
code and message; no successful payload is returned. -/
theorem c3_domain_error (cfg : Option SchoolConfigJs) (fg : Option (List String))
    (status : Nat) (text : String) (body : DecodedBody) (e : ErrorObj)
    (hcfg : validConfig cfg = true) (herr : body.error = .objVal e) :
    (getWebUntisTimetable cfg fg (.replied true status text (some body))).result = none ∧
    LogEntry.apiErrorLog (some e.code) (some e.message) ∈
      (getWebUntisTimetable cfg fg (.replied true status text (some body))).errorLog ∧
    LogEntry.caught (.api (some e.message)) ∈
      (getWebUntisTimetable cfg fg (.replied true status text (some body))).errorLog := by
  simp [getWebUntisTimetable, hcfg, herr, ErrorField.truthy, ErrorField.codeOf,
    ErrorField.messageOf]

theorem c3_domain_error_witness :
    validConfig okCfg = true ∧ apiErrBody.error = .objVal ⟨-1, "not found"⟩ ∧
    (getWebUntisTimetable okCfg none (.replied true 200 "" (some apiErrBody))).result = none ∧
    LogEntry.apiErrorLog (some (-1)) (some "not found") ∈
      (getWebUntisTimetable okCfg none (.replied true 200 "" (some apiErrBody))).errorLog := by
  have h := c3_domain_error okCfg none 200 "" apiErrBody ⟨-1, "not found"⟩ (by decide) rfl
  exact ⟨by decide, rfl, h.1, h.2.1⟩

/-- C4 (counterexample): two failures with different diagnostics — an HTTP
500 with body text, and a domain error with code -1 and message "not found" —
both return the bare `null`; the two returned failure results are identical
and carry no status code, body text, or error code/message, so the returned
failure result does not carry the diagnostic detail. -/
theorem c4_result_no_diagnostic :
    (getWebUntisTimetable okCfg none (.replied false 500 "Server Error" none)).result = none ∧
    (getWebUntisTimetable okCfg none (.replied true 200 "" (some apiErrBody))).result = none ∧
    (getWebUntisTimetable okCfg none (.replied false 500 "Server Error" none)).result =
      (getWebUntisTimetable okCfg none (.replied true 200 "" (some apiErrBody))).result := by
  exact ⟨by decide, by decide, by decide⟩

/-- C4 (amended): every failure of any of the four kinds is converted into
the single unsuccessful result `null` returned to the caller (the call never
throws), and the diagnostic detail (HTTP status, body text, domain error
code/message, configuration failure) is emitted to the console error log
during the call — not attached to the returned result. -/
theorem c4_error_propagation (cfg : Option SchoolConfigJs) (fg : Option (List String))
    (cause text : String) (status : Nat) (body : DecodedBody) (e : ErrorObj)
    (hcfg : validConfig cfg = true) (he : body.error = .objVal e) :
    ((getWebUntisTimetable cfg fg (.thrown cause)).result = none ∧
      LogEntry.caught (.network cause) ∈
        (getWebUntisTimetable cfg fg (.thrown cause)).errorLog) ∧
    ((getWebUntisTimetable cfg fg (.replied false status text none)).result = none ∧
      LogEntry.caught (.http status text) ∈
        (getWebUntisTimetable cfg fg (.replied false status text none)).errorLog) ∧
    ((getWebUntisTimetable cfg fg (.replied true status text none)).result = none ∧
      LogEntry.caught .parse ∈
        (getWebUntisTimetable cfg fg (.replied true status text none)).errorLog) ∧
    ((getWebUntisTimetable cfg fg (.replied true status text (some body))).result = none ∧
      LogEntry.caught (.api (some e.message)) ∈
        (getWebUntisTimetable cfg fg (.replied true status text (some body))).errorLog ∧
      LogEntry.apiErrorLog (some e.code) (some e.message) ∈
        (getWebUntisTimetable cfg fg (.replied true status text (some body))).errorLog) ∧
    (∀ cfg2, validConfig cfg2 = false →
      (getWebUntisTimetable cfg2 fg (.thrown cause)).result = none ∧
      LogEntry.configError ∈ (getWebUntisTimetable cfg2 fg (.thrown cause)).errorLog) := by
  refine ⟨?_, ?_, ?_, ?_, ?_⟩
  · simp [getWebUntisTimetable, hcfg]
  · simp [getWebUntisTimetable, hcfg]
  · simp [getWebUntisTimetable, hcfg]
  · simp [getWebUntisTimetable, hcfg, he, ErrorField.truthy, ErrorField.codeOf,
      ErrorField.messageOf]
  · intro cfg2 h2
    simp [getWebUntisTimetable, h2]

theorem c4_error_propagation_witness :
    validConfig okCfg = true ∧
    (getWebUntisTimetable okCfg none (.thrown "ECONNREFUSED")).result = none ∧
    LogEntry.caught (.http 500 "Server Error") ∈
      (getWebUntisTimetable okCfg none (.replied false 500 "Server Error" none)).errorLog := by
  have h := c4_error_propagation okCfg none "ECONNREFUSED" "Server Error" 500 apiErrBody
    ⟨-1, "not found"⟩ (by decide) rfl
  exact ⟨by decide, h.1.1, h.2.1.2⟩

/-- C5 (counterexample): a configuration whose `departmentIds` is an array of
a non-integer — not a sequence of integers — passes validation: the retrieval
performs the network exchange, reports no configuration error, and can even
return a successful payload, refuting the claim that such an identity is
rejected before any network activity. -/
theorem c5_element_types_unchecked :
    (¬ ∃ ns : List Int, badDeptCfg.departmentIds = JVal.jarr (ns.map JPrim.pi)) ∧
    validConfig (some badDeptCfg) = true ∧
    (getWebUntisTimetable (some badDeptCfg) none (.replied true 200 "" (some okBody))).networkUsed
      = true ∧
    LogEntry.configError ∉
      (getWebUntisTimetable (some badDeptCfg) none (.replied true 200 "" (some okBody))).errorLog ∧
    (getWebUntisTimetable (some badDeptCfg) none (.replied true 200 "" (some okBody))).result
      ≠ none := by
  refine ⟨?_, by decide, by decide, by decide, by decide⟩
  rintro ⟨ns, h⟩
  have h2 : ([JPrim.ps "x"] : List JPrim) = ns.map JPrim.pi := by
    rw [show badDeptCfg.departmentIds = JVal.jarr [JPrim.ps "x"] from rfl] at h
    exact JVal.jarr.inj h
  cases ns with
  | nil => simp at h2
  | cons a t => simp at h2

/-- C5 (amended): the call rejects the identity, before any network activity
and with a configuration-error report, exactly when the identity is missing,
its `schoolName` or `formatName` is missing or empty, or its `departmentIds`
is not an array — the element types of the array are not checked. -/
theorem c5_identity_validation (cfg : Option SchoolConfigJs) (fg : Option (List String))
    (ex : Exchange) :
    (validConfig cfg = false ↔
      (cfg = none ∨ ∃ c, cfg = some c ∧
        (c.schoolName = none ∨ c.schoolName = some "" ∨ c.formatName = none ∨
         c.formatName = some "" ∨ isArray c.departmentIds = false))) ∧
    (validConfig cfg = false →
      (getWebUntisTimetable cfg fg ex).result = none ∧
      (getWebUntisTimetable cfg fg ex).networkUsed = false ∧
      LogEntry.configError ∈ (getWebUntisTimetable cfg fg ex).errorLog) := by
  constructor
  · cases cfg with
    | none => simp [validConfig]
    | some c =>
      simp only [validConfig, Bool.and_eq_false_iff]
      constructor
      · intro h
        refine Or.inr ⟨c, rfl, ?_⟩
        rcases h with (h | h) | h
        · cases hs : c.schoolName with
          | none => exact Or.inl rfl
          | some s =>
            rw [hs] at h
            simp only [truthyOptStr, bne_eq_false_iff_eq] at h
            exact Or.inr (Or.inl (by rw [h]))
        · cases hs : c.formatName with
          | none => exact Or.inr (Or.inr (Or.inl rfl))
          | some s =>
            rw [hs] at h
            simp only [truthyOptStr, bne_eq_false_iff_eq] at h
            exact Or.inr (Or.inr (Or.inr (Or.inl (by rw [h]))))
        · exact Or.inr (Or.inr (Or.inr (Or.inr h)))
      · rintro (h | ⟨c2, hc2, h⟩)
        · exact absurd h (by simp)
        · have hcc : c2 = c := by injection hc2.symm
          subst hcc
          rcases h with h | h | h | h | h
          · exact Or.inl (Or.inl (by rw [h]; rfl))
          · exact Or.inl (Or.inl (by rw [h]; rfl))
          · exact Or.inl (Or.inr (by rw [h]; rfl))
          · exact Or.inl (Or.inr (by rw [h]; rfl))
          · exact Or.inr h
  · intro h
    simp [getWebUntisTimetable, h]

theorem c5_identity_validation_witness :
    validConfig (some ⟨some "", some "Fmt", .jarr []⟩) = false ∧
    (getWebUntisTimetable (some ⟨some "", some "Fmt", .jarr []⟩) none
      (.thrown "unused")).networkUsed = false ∧
    (getWebUntisTimetable (some ⟨some "", some "Fmt", .jarr []⟩) none
      (.thrown "unused")).result = none := by
  have h := (c5_identity_validation (some ⟨some "", some "Fmt", .jarr []⟩) none
    (.thrown "unused")).2 (by decide)
  exact ⟨by decide, h.2.1, h.1⟩

/-- C6: on every successful retrieval only `rows` is replaced (by the filter
output); `absentElements`, `lastUpdate` and every other payload field pass
through unmodified, and `absentElements` is not group-filtered. -/
theorem c6_payload_frame (cfg : Option SchoolConfigJs) (fg : Option (List String))
    (status : Nat) (text : String) (body : DecodedBody) (p : TimetablePayload)
    (hcfg : validConfig cfg = true) (herr : body.error.truthy = false)
    (hp : body.payload = some p) :
    ∃ q, (getWebUntisTimetable cfg fg (.replied true status text (some body))).result = some q ∧
      q.rows = filterRows p.rows fg ∧
      q.absentElements = p.absentElements ∧
      q.lastUpdate = p.lastUpdate ∧
      q.extra = p.extra := by
  refine ⟨processPayload p fg, ?_, rfl, rfl, rfl, rfl⟩
  simp [getWebUntisTimetable, hcfg, herr, hp]

theorem c6_payload_frame_witness :
    validConfig okCfg = true ∧ okBody.error.truthy = false ∧
    (getWebUntisTimetable okCfg (some ["11a"]) (.replied true 200 "" (some okBody))).result =
      some ⟨[rowA], samplePayload.absentElements, samplePayload.lastUpdate,
        samplePayload.extra⟩ := by
  refine ⟨by decide, rfl, ?_⟩
  obtain ⟨q, hq, hrows, habs, hlast, hextra⟩ :=
    c6_payload_frame okCfg (some ["11a"]) 200 "" okBody samplePayload (by decide) rfl rfl
  rw [hq]
  have : q = ⟨[rowA], samplePayload.absentElements, samplePayload.lastUpdate,
      samplePayload.extra⟩ := by
    obtain ⟨qr, qa, ql, qe⟩ := q
    simp only at hrows habs hlast hextra
    rw [show (filterRows samplePayload.rows (some ["11a"])) = [rowA] from by decide] at hrows
    rw [hrows, habs, hlast, hextra]
  rw [this]

/-- The info component of the row's 5-tuple, the empty string when absent. -/
def infoText (r : Row) : String :=
  match r.data.info with
  | none => ""
  | some s => s

/-- C7: for every row, the cleaned info equals the info text with every
substring delimited by `<` and `>` removed (empty or absent info yielding
the empty string), and the cancellation flag holds exactly when `cellClasses`
has an entry for cell index "1" whose tag set includes "cancelStyle". -/
theorem c7_presentation_facts (r : Row) :
    (derivePresentation r).cleanedInfo = specStripStr (infoText r) ∧
    ((derivePresentation r).isCancelled = true ↔
      ∃ cc tags, r.cellClasses = some cc ∧ cc.lookup "1" = some tags ∧
        "cancelStyle" ∈ tags) := by
  obtain ⟨g, dat, ccs⟩ := r
  obtain ⟨dh, ds, dr, dt, di⟩ := dat
  constructor
  · show (match di with
      | none => ""
      | some s => if s = "" then "" else stripTagsStr s) =
      specStripStr (match di with
        | none => ""
        | some s => s)
    cases di with
    | none => rfl
    | some s =>
      by_cases hs : s = ""
      · subst hs
        rfl
      · simp only [if_neg hs]
        exact stripTagsStr_eq_specStripStr s
  · show (match ccs with
      | none => false
      | some cc =>
        match cc.lookup "1" with
        | none => false
        | some tags => tags.contains "cancelStyle") = true ↔ _
    cases ccs with
    | none =>
      constructor
      · intro h
        exact absurd h (by simp)
      · rintro ⟨cc, tags, hc, _⟩
        exact absurd hc (by simp)
    | some cc =>
      constructor
      · intro h
        have h2 : (match cc.lookup "1" with
          | none => false
          | some tags => tags.contains "cancelStyle") = true := h
        rcases hl : cc.lookup "1" with _ | tags
        · rw [hl] at h2
          exact absurd h2 (by simp)
        · rw [hl] at h2
          exact ⟨cc, tags, rfl, hl, by simpa using h2⟩
      · rintro ⟨cc2, tags, hc2, hl2, hmem⟩
        have hcc : cc2 = cc := by injection hc2.symm
        subst hcc
        show (match List.lookup "1" cc2 with
          | none => false
          | some tags => List.contains tags "cancelStyle") = true
        rw [hl2]
        simpa using hmem

/-- C8: rows with a missing/empty group land in the sentinel bucket
"Unbekannte Gruppe" rather than being dropped; the bucket names are strictly
ascending lexicographically; each bucket keeps its rows in the original
relative order (it is a filtered subsequence of the input). -/
theorem c8_grouping (rows : List Row) (r : Row) (hr : r ∈ rows)
    (hg : r.group = none ∨ r.group = some "") :
    (∃ b, ("Unbekannte Gruppe", b) ∈ groupByClass rows ∧ r ∈ b) ∧
    ((groupByClass rows).map Prod.fst).Pairwise strLt ∧
    (∀ n b, (n, b) ∈ groupByClass rows →
      b = rows.filter (fun x => groupName x == n) ∧ b.Sublist rows) := by
  refine ⟨?_, ?_, ?_⟩
  · apply groupByClass_sentinel rows r hr
    rcases hg with h | h <;> simp [groupName, h]
  · rw [groupByClass_names]
    exact sortedGroupNames_strict rows
  · intro n b h
    exact groupByClass_mem_bucket rows n b h

theorem c8_grouping_witness :
    rowB ∈ sampleRows ∧
    (∃ b, ("Unbekannte Gruppe", b) ∈ groupByClass sampleRows ∧ rowB ∈ b) ∧
    (groupByClass sampleRows).map Prod.fst = ["11a", "Unbekannte Gruppe"] := by
  refine ⟨by decide, (c8_grouping sampleRows rowB (by decide) (Or.inl rfl)).1, by decide⟩

/-- C9: every flag of the constant template block appears verbatim (same key,
same value) in the outbound body built for any call, and the body of every
call holds the template entries unchanged — the shared constant is only ever
read. -/
theorem c9_flag_block (c : SchoolConfigJs) (untisDate : Nat) (off days : Int)
    (k : String) (hk : k ∈ BASE_MONITOR_PAYLOAD_TEMPLATE.map Prod.fst) :
    (buildPayload c untisDate off days).lookup k = BASE_MONITOR_PAYLOAD_TEMPLATE.lookup k ∧
    ((buildPayload c untisDate off days).lookup k).isSome := by
  have hs := lookup_isSome_of_mem_keys BASE_MONITOR_PAYLOAD_TEMPLATE k hk
  have heq : (buildPayload c untisDate off days).lookup k =
      BASE_MONITOR_PAYLOAD_TEMPLATE.lookup k :=
    lookup_append_left BASE_MONITOR_PAYLOAD_TEMPLATE _ k hs
  exact ⟨heq, heq ▸ hs⟩

theorem c9_flag_block_witness :
    "strikethrough" ∈ BASE_MONITOR_PAYLOAD_TEMPLATE.map Prod.fst ∧
    (buildPayload okCfgRaw 20250521 0 1).lookup "strikethrough" = some (.jb true) ∧
    (buildPayload badDeptCfg 20260101 (-3) 5).lookup "showAbsentElements" =
      some (.jarr [.pi 2]) := by
  refine ⟨by decide, ?_, ?_⟩
  · rw [(c9_flag_block okCfgRaw 20250521 0 1 "strikethrough" (by decide)).1]
    decide
  · rw [(c9_flag_block badDeptCfg 20260101 (-3) 5 "showAbsentElements" (by decide)).1]
    decide

/-- C10 (implicit): when the error field is present but falsy (null, 0,
false, or the empty string), no ApiError is reported and the retrieval
proceeds to a successful result. -/
theorem c10_falsy_error_ignored (cfg : Option SchoolConfigJs)
    (fg : Option (List String)) (status : Nat) (text : String)
    (body : DecodedBody) (p : TimetablePayload)
    (hcfg : validConfig cfg = true)
    (hfalsy : body.error = .nullv ∨ body.error = .numVal 0 ∨
      body.error = .boolVal false ∨ body.error = .strVal "")
    (hp : body.payload = some p) :
    (getWebUntisTimetable cfg fg (.replied true status text (some body))).result =
      some (processPayload p fg) ∧
    ∀ c m, LogEntry.apiErrorLog c m ∉
      (getWebUntisTimetable cfg fg (.replied true status text (some body))).errorLog := by
  have htr : body.error.truthy = false := by
    rcases hfalsy with h | h | h | h <;> rw [h] <;> rfl
  constructor
  · simp [getWebUntisTimetable, hcfg, htr, hp]
  · intro c m
    simp [getWebUntisTimetable, hcfg, htr, hp]

theorem c10_falsy_error_ignored_witness :
    validConfig okCfg = true ∧
    (getWebUntisTimetable okCfg none
      (.replied true 200 "" (some ⟨.numVal 0, some samplePayload⟩))).result =
      some (processPayload samplePayload none) ∧
    ∀ c m, LogEntry.apiErrorLog c m ∉
      (getWebUntisTimetable okCfg none
        (.replied true 200 "" (some ⟨.numVal 0, some samplePayload⟩))).errorLog := by
  have h := c10_falsy_error_ignored okCfg none 200 ""
    ⟨.numVal 0, some samplePayload⟩ samplePayload (by decide) (Or.inr (Or.inl rfl)) rfl
  exact ⟨by decide, h.1, h.2⟩
